import Mathlib

/-!
Verification of `camera_recorder.py`.

A shallow embedding of the rolling-buffer camera recorder: the frame
ring buffer (a Python `deque` with `maxlen`), the capture loop, the
live resize of the retention window, the export trigger and the
background save path.  Frames are value objects; the GUI, OpenCV device
handling and threading are external collaborators, modelled as explicit
inputs (read results, encoder success flag, wall-clock time).
-/

namespace CameraRecorder

/-- A captured image frame: pixel dimensions plus an identity standing for
the pixel payload.  Frames are immutable values; `frame.copy()` in the
source is the identity on values. -/
structure Frame where
  width : Nat
  height : Nat
  ident : Nat
deriving DecidableEq, Repr

/-- Model of `cv2.resize(frame, (w, h))`: same payload, new dimensions. -/
def resizeFrame (w h : Nat) (f : Frame) : Frame :=
  ⟨w, h, f.ident⟩

/-- The dimension check done before buffering and before encoding:
`if frame_width != video_width or frame_height != video_height: resize`. -/
def normalizeFrame (w h : Nat) (f : Frame) : Frame :=
  if f.width ≠ w ∨ f.height ≠ h then resizeFrame w h f else f

/-- The `collections.deque(maxlen = capacity)` holding frames oldest first,
as `self.frame_buffer` does. -/
@[ext]
structure RingBuffer where
  capacity : Nat
  frames : List Frame
deriving DecidableEq, Repr

/-- Semantics of `deque.append` under a `maxlen`: a full deque pops its left (oldest)
element while appending on the right; a `maxlen`-0 deque stays empty. -/
def RingBuffer.push (b : RingBuffer) (f : Frame) : RingBuffer :=
  if b.capacity = 0 then b
  else if b.frames.length = b.capacity then ⟨b.capacity, b.frames.tail ++ [f]⟩
  else ⟨b.capacity, b.frames ++ [f]⟩

/-- Appending a whole list of frames, one `deque.append` at a time. -/
def RingBuffer.pushAll (b : RingBuffer) (fs : List Frame) : RingBuffer :=
  fs.foldl RingBuffer.push b

/-- The last `n` elements of a list (all of it when `n ≥ length`). -/
def listTakeLast (n : Nat) (l : List α) : List α :=
  l.drop (l.length - n)

theorem listTakeLast_length (n : Nat) (l : List α) :
    (listTakeLast n l).length = min n l.length := by
  rw [listTakeLast, List.length_drop]
  omega

theorem listTakeLast_of_le {n : Nat} {l : List α} (h : l.length ≤ n) :
    listTakeLast n l = l := by
  have hz : l.length - n = 0 := by omega
  rw [listTakeLast, hz, List.drop_zero]

theorem RingBuffer.push_capacity (b : RingBuffer) (f : Frame) :
    (b.push f).capacity = b.capacity := by
  unfold RingBuffer.push
  split
  · rfl
  · split <;> rfl

/-- Invariant-respecting characterization of `deque.append`: the result
holds the last `capacity` elements of the old contents plus the new one. -/
theorem RingBuffer.push_frames (b : RingBuffer) (f : Frame)
    (h : b.frames.length ≤ b.capacity) :
    (b.push f).frames = listTakeLast b.capacity (b.frames ++ [f]) := by
  unfold RingBuffer.push listTakeLast
  rcases Nat.eq_zero_or_pos b.capacity with hc | hc
  · have hnil : b.frames = [] := by
      have := h
      rw [hc] at this
      exact List.length_eq_zero.mp (Nat.le_zero.mp this)
    simp [hc, hnil]
  · have hcne : ¬ b.capacity = 0 := Nat.pos_iff_ne_zero.mp hc
    simp only [hcne, if_false]
    by_cases hfull : b.frames.length = b.capacity
    · have hne : b.frames ≠ [] := by
        intro hnil
        rw [hnil] at hfull
        simp at hfull
        omega
      rw [if_pos hfull]
      have hdrop : (b.frames ++ [f]).drop 1 = b.frames.drop 1 ++ [f] := by
        rw [List.drop_append_of_le_length]
        omega
      have hlen : (b.frames ++ [f]).length - b.capacity = 1 := by
        simp [List.length_append]
        omega
      rw [hlen, hdrop, List.drop_one]
    · rw [if_neg hfull]
      have hlen : (b.frames ++ [f]).length - b.capacity = 0 := by
        simp [List.length_append]
        omega
      rw [hlen, List.drop_zero]

theorem RingBuffer.push_length (b : RingBuffer) (f : Frame)
    (h : b.frames.length ≤ b.capacity) :
    (b.push f).frames.length = min (b.frames.length + 1) b.capacity := by
  rw [RingBuffer.push_frames b f h, listTakeLast_length]
  simp
  omega

theorem RingBuffer.push_preserves_inv (b : RingBuffer) (f : Frame)
    (h : b.frames.length ≤ b.capacity) :
    (b.push f).frames.length ≤ (b.push f).capacity := by
  rw [RingBuffer.push_capacity, RingBuffer.push_length b f h]
  omega

/-- Taking the last `c` elements first cannot change the last `c` elements
of a longer concatenation. -/
theorem listTakeLast_append_absorb (c : Nat) (l xs : List α) :
    listTakeLast c (listTakeLast c l ++ xs) = listTakeLast c (l ++ xs) := by
  unfold listTakeLast
  have hsplit : l = l.take (l.length - c) ++ l.drop (l.length - c) :=
    (List.take_append_drop _ l).symm
  set d := l.length - c with hd
  have hdlen : (l.take d).length = d := by
    rw [List.length_take]
    omega
  have hdroplen : (l.drop d).length = l.length - d := by
    rw [List.length_drop]
  conv_rhs => rw [hsplit]
  rw [List.append_assoc]
  have harith : (l ++ xs).length - c = d + ((l.drop d ++ xs).length - c) := by
    simp only [List.length_append, hdroplen]
    omega
  have hrw : (l.take d ++ (l.drop d ++ xs)).length - c
      = (l.take d).length + ((l.drop d ++ xs).length - c) := by
    simp only [List.length_append, hdlen, hdroplen]
    omega
  rw [hrw, List.drop_append]

/-- Running `pushAll` on an invariant state: the final contents are the last
`capacity` elements of old-contents-then-pushed-frames, in order. -/
theorem RingBuffer.pushAll_frames (xs : List Frame) (b : RingBuffer)
    (h : b.frames.length ≤ b.capacity) :
    (b.pushAll xs).frames = listTakeLast b.capacity (b.frames ++ xs) := by
  induction xs generalizing b with
  | nil =>
      show b.frames = listTakeLast b.capacity (b.frames ++ [])
      rw [List.append_nil, listTakeLast_of_le h]
  | cons x xs ih =>
      have hstep : b.pushAll (x :: xs) = (b.push x).pushAll xs := by
        simp [RingBuffer.pushAll]
      rw [hstep, ih (b.push x) (RingBuffer.push_preserves_inv b x h)]
      rw [RingBuffer.push_capacity, RingBuffer.push_frames b x h]
      rw [listTakeLast_append_absorb]
      simp

theorem RingBuffer.pushAll_capacity (xs : List Frame) (b : RingBuffer) :
    (b.pushAll xs).capacity = b.capacity := by
  induction xs generalizing b with
  | nil => rfl
  | cons x xs ih =>
      have hstep : b.pushAll (x :: xs) = (b.push x).pushAll xs := by
        simp [RingBuffer.pushAll]
      rw [hstep, ih, RingBuffer.push_capacity]

theorem RingBuffer.pushAll_inv (xs : List Frame) (b : RingBuffer)
    (h : b.frames.length ≤ b.capacity) :
    (b.pushAll xs).frames.length ≤ (b.pushAll xs).capacity := by
  rw [RingBuffer.pushAll_frames xs b h, RingBuffer.pushAll_capacity,
    listTakeLast_length]
  omega

/-- The recorder fields the core logic reads and writes.  GUI widgets,
the device handle and the lock are external; the lock makes the Python
methods sequential, which the pure functions below model directly. -/
@[ext]
structure Recorder where
  fps : Nat
  bufferDuration : Nat
  frameBuffer : RingBuffer
  isSaving : Bool
  videoWidth : Nat
  videoHeight : Nat
  outputDir : String
deriving DecidableEq, Repr

/-- Python `int(...)` on a float or rational: truncation toward zero. -/
def pyTrunc (q : ℚ) : Int :=
  if 0 ≤ q then ⌊q⌋ else ⌈q⌉

/-- The stored fps: `self.fps = int(self.cap.get(cv2.CAP_PROP_FPS))` followed by the
fallback `if self.fps <= 0: self.fps = 30`. -/
def fpsFromCamera (reported : ℚ) : Nat :=
  if pyTrunc reported ≤ 0 then 30 else (pyTrunc reported).toNat

/-- The startup capacity `buffer_size = self.fps * self.buffer_duration` in `init_camera`. -/
def initCapacity (reported : ℚ) (bufferDuration : Nat) : Nat :=
  fpsFromCamera reported * bufferDuration

/-- Model of `init_camera` on a successfully opened device: store the integer fps
and allocate an empty deque of `fps * buffer_duration` frames. -/
def initCamera (reported : ℚ) (bufferDuration : Nat) (outputDir : String) :
    Recorder :=
  { fps := fpsFromCamera reported
    bufferDuration := bufferDuration
    frameBuffer := ⟨initCapacity reported bufferDuration, []⟩
    isSaving := false
    videoWidth := 1920
    videoHeight := 1080
    outputDir := outputDir }

/-- Python's `l[-k:]` slice: the last `k` elements, except that `k = 0`
(`l[-0:]` = `l[0:]`) yields the whole list. -/
def pySliceLast (k : Nat) (l : List Frame) : List Frame :=
  if k = 0 then l else l.drop (l.length - k)

/-- Model of `update_buffer_size(new_duration)`: compute `fps * new_duration`,
copy the most recent `min(len, new_size)` frames into a fresh deque of
the new `maxlen`, and swap it in. -/
def updateBufferSize (r : Recorder) (newDuration : Nat) : Recorder :=
  let newBufferSize := r.fps * newDuration
  let currentFrames := r.frameBuffer.frames
  let framesToKeep := min currentFrames.length newBufferSize
  let newBuffer :=
    RingBuffer.pushAll ⟨newBufferSize, []⟩ (pySliceLast framesToKeep currentFrames)
  { r with frameBuffer := newBuffer, bufferDuration := newDuration }

/-- One `self.cap.read()` from the device: a decoded frame, or `ret ==
False` (end-of-stream, read failure or an undecodable frame alike). -/
inductive ReadResult where
  | ok (f : Frame)
  | fail
deriving DecidableEq, Repr

/-- The body of one successful `capture_loop` iteration: normalize the
frame to Full HD, then append a copy to the buffer under the lock. -/
def captureStepFrame (r : Recorder) (f : Frame) : Recorder :=
  { r with
    frameBuffer :=
      r.frameBuffer.push (normalizeFrame r.videoWidth r.videoHeight f) }

/-- Model of `capture_loop` over a finite trace of device reads: every iteration
does `ret, frame = self.cap.read()`; `if not ret:` prints a message and
`break`s, otherwise the frame is buffered and the loop continues. -/
def captureLoop (r : Recorder) : List ReadResult → Recorder
  | [] => r
  | .fail :: _ => r
  | .ok f :: rest => captureLoop (captureStepFrame r f) rest

/-- The frames a run of `capture_loop` actually buffers: the reads
before the first failed one. -/
def okFrames : List ReadResult → List Frame
  | [] => []
  | .fail :: _ => []
  | .ok f :: rest => f :: okFrames rest

/-- What a single `on_save_button_clicked` call does. -/
inductive TriggerResult where
  | alreadySaving
  | emptyBuffer
  | started (framesToSave : List Frame)
deriving DecidableEq, Repr

/-- Model of `on_save_button_clicked`: bail out silently while `is_saving`; with
an empty buffer show the no-frames status and stay idle; otherwise copy
the buffer contents (`list(self.frame_buffer)`), mark `is_saving` and
hand the copy to the save thread. -/
def onSaveButtonClicked (r : Recorder) : TriggerResult × Recorder :=
  if r.isSaving then (.alreadySaving, r)
  else if r.frameBuffer.frames.length = 0 then (.emptyBuffer, r)
  else (.started r.frameBuffer.frames, { r with isSaving := true })

/-- Two-digit zero-padded decimal field of `strftime`. -/
def pad2 (n : Nat) : String :=
  if n < 10 then "0" ++ toString n else toString n

/-- Four-digit zero-padded decimal field of `strftime` (`%Y`). -/
def pad4 (n : Nat) : String :=
  if n < 10 then "000" ++ toString n
  else if n < 100 then "00" ++ toString n
  else if n < 1000 then "0" ++ toString n
  else toString n

/-- Proleptic-Gregorian date for a day count since the epoch
(1970-01-01 is day 0): year, month, day. -/
def civilFromDays (z : Int) : Int × Nat × Nat :=
  let z' := z + 719468
  let era := z'.fdiv 146097
  let doe := (z' - era * 146097).toNat
  let yoe := (doe - doe / 1460 + doe / 36524 - doe / 146096) / 365
  let doy := doe - (365 * yoe + yoe / 4 - yoe / 100)
  let mp := (5 * doy + 2) / 153
  let d := doy - (153 * mp + 2) / 5 + 1
  let m := if mp < 10 then mp + 3 else mp - 9
  let y := (yoe : Int) + era * 400 + (if m ≤ 2 then 1 else 0)
  (y, m, d)

/-- Rendering of `datetime.fromtimestamp(t).strftime("%Y-%m-%d_%H-%M-%S")` for an
epoch-seconds instant `t` (fixed zero utc offset: the machine's
timezone is environment configuration, not program logic). -/
def formatTimestamp (t : Int) : String :=
  let days := t.fdiv 86400
  let sod := (t - 86400 * days).toNat
  let c := civilFromDays days
  pad4 c.1.toNat ++ "-" ++ pad2 c.2.1 ++ "-" ++ pad2 c.2.2 ++ "_" ++
    pad2 (sod / 3600) ++ "-" ++ pad2 (sod / 60 % 60) ++ "-" ++ pad2 (sod % 60)

/-- A finished container file as `cv2.VideoWriter` leaves it: path,
playback rate, frame size and the written frame sequence. -/
structure VideoFile where
  path : String
  fps : Nat
  width : Nat
  height : Nat
  frames : List Frame
deriving DecidableEq, Repr

/-- The three ways `save_video` can finish: the silent zero-frame early
return (no callback runs), success (`on_save_complete` is scheduled) or
an exception (`on_save_error` is scheduled). -/
inductive SaveOutcome where
  | noFrames
  | saved (file : VideoFile)
  | error (msg : String)
deriving DecidableEq, Repr

/-- Model of `save_video(frames)` in the save thread.  Wall-clock `now` is
`datetime.now().timestamp()`; `encOk` abstracts whether the OpenCV
encode/write calls raise.  The file is named from
`now - len(frames) / fps` and placed in the output directory; frames
are re-checked against the Full HD target before writing. -/
def saveVideo (r : Recorder) (frames : List Frame) (now : ℚ) (encOk : Bool) :
    SaveOutcome :=
  let videoDuration : ℚ := (frames.length : ℚ) / (r.fps : ℚ)
  let videoStartTime : ℚ := now - videoDuration
  let timestamp := formatTimestamp ⌊videoStartTime⌋
  let filename := r.outputDir ++ "/" ++ timestamp ++ ".mp4"
  if frames.length = 0 then .noFrames
  else if encOk then
    .saved ⟨filename, r.fps, r.videoWidth, r.videoHeight,
      frames.map (normalizeFrame r.videoWidth r.videoHeight)⟩
  else .error "Error saving video"

/-- The `is_saving` flag after `save_video` finishes: `on_save_complete`
and `on_save_error` both clear it; the zero-frame early return runs
neither callback and leaves it set. -/
def afterSaveOutcome (r : Recorder) (o : SaveOutcome) : Recorder :=
  match o with
  | .noFrames => r
  | .saved _ => { r with isSaving := false }
  | .error _ => { r with isSaving := false }

/-- A whole export episode: the button click, then — when a save thread
was started — frames `xs` arriving from the capture loop while the save
thread encodes the private copy, then the save thread's outcome and its
callback.  Returns the save outcome (if any) and the final recorder. -/
def exportWithConcurrentPushes (r : Recorder) (xs : List Frame) (now : ℚ)
    (encOk : Bool) : Option SaveOutcome × Recorder :=
  match onSaveButtonClicked r with
  | (.started fs, r1) =>
      let r2 := xs.foldl captureStepFrame r1
      let o := saveVideo r2 fs now encOk
      (some o, afterSaveOutcome r2 o)
  | (_, r1) => (none, xs.foldl captureStepFrame r1)

theorem updateBufferSize_capacity (r : Recorder) (d : Nat) :
    (updateBufferSize r d).frameBuffer.capacity = r.fps * d := by
  show (RingBuffer.pushAll ⟨r.fps * d, []⟩
      (pySliceLast (min r.frameBuffer.frames.length (r.fps * d))
        r.frameBuffer.frames)).capacity = r.fps * d
  rw [RingBuffer.pushAll_capacity]

theorem updateBufferSize_frames (r : Recorder) (d : Nat) :
    (updateBufferSize r d).frameBuffer.frames
      = r.frameBuffer.frames.drop
          (r.frameBuffer.frames.length - r.fps * d) := by
  show (RingBuffer.pushAll ⟨r.fps * d, []⟩
      (pySliceLast (min r.frameBuffer.frames.length (r.fps * d))
        r.frameBuffer.frames)).frames
    = r.frameBuffer.frames.drop (r.frameBuffer.frames.length - r.fps * d)
  rw [RingBuffer.pushAll_frames _ _ (by simp)]
  unfold pySliceLast
  by_cases h0 : min r.frameBuffer.frames.length (r.fps * d) = 0
  · rw [if_pos h0]
    show listTakeLast (r.fps * d) ([] ++ r.frameBuffer.frames) = _
    rw [List.nil_append, listTakeLast]
  · rw [if_neg h0]
    show listTakeLast (r.fps * d)
        ([] ++ r.frameBuffer.frames.drop
          (r.frameBuffer.frames.length
            - min r.frameBuffer.frames.length (r.fps * d))) = _
    rw [List.nil_append]
    rw [listTakeLast_of_le (by rw [List.length_drop]; omega)]
    congr 1
    omega

theorem updateBufferSize_length (r : Recorder) (d : Nat) :
    (updateBufferSize r d).frameBuffer.frames.length
      = min r.frameBuffer.frames.length (r.fps * d) := by
  rw [updateBufferSize_frames, List.length_drop]
  omega

theorem updateBufferSize_fields (r : Recorder) (d : Nat) :
    (updateBufferSize r d).fps = r.fps ∧
    (updateBufferSize r d).bufferDuration = d ∧
    (updateBufferSize r d).isSaving = r.isSaving ∧
    (updateBufferSize r d).videoWidth = r.videoWidth ∧
    (updateBufferSize r d).videoHeight = r.videoHeight ∧
    (updateBufferSize r d).outputDir = r.outputDir := by
  exact ⟨rfl, rfl, rfl, rfl, rfl, rfl⟩

theorem updateBufferSize_inv (r : Recorder) (d : Nat) :
    (updateBufferSize r d).frameBuffer.frames.length
      ≤ (updateBufferSize r d).frameBuffer.capacity := by
  rw [updateBufferSize_length, updateBufferSize_capacity]
  omega

/-- The last element after a `deque.append` with positive `maxlen` is
the pushed frame: an append never silently drops the new element. -/
theorem RingBuffer.push_getLast (b : RingBuffer) (g : Frame)
    (hc : b.capacity ≠ 0) :
    (b.push g).frames.getLast? = some g := by
  unfold RingBuffer.push
  rw [if_neg hc]
  by_cases hfull : b.frames.length = b.capacity
  · rw [if_pos hfull]
    exact List.getLast?_concat _
  · rw [if_neg hfull]
    exact List.getLast?_concat _

/-- The operations the lock serializes on the live buffer. -/
inductive BufOp where
  | push (f : Frame)
  | setRetention (d : Nat)
deriving DecidableEq, Repr

/-- Dispatch one serialized operation on the recorder. -/
def applyOp (r : Recorder) : BufOp → Recorder
  | .push f => captureStepFrame r f
  | .setRetention d => updateBufferSize r d

theorem applyOp_inv (r : Recorder) (op : BufOp)
    (h : r.frameBuffer.frames.length ≤ r.frameBuffer.capacity) :
    (applyOp r op).frameBuffer.frames.length
      ≤ (applyOp r op).frameBuffer.capacity := by
  cases op with
  | push f => exact RingBuffer.push_preserves_inv _ _ h
  | setRetention d => exact updateBufferSize_inv r d

theorem foldl_applyOp_inv (ops : List BufOp) (r : Recorder)
    (h : r.frameBuffer.frames.length ≤ r.frameBuffer.capacity) :
    (ops.foldl applyOp r).frameBuffer.frames.length
      ≤ (ops.foldl applyOp r).frameBuffer.capacity := by
  induction ops generalizing r with
  | nil => exact h
  | cons op ops ih => exact ih (applyOp r op) (applyOp_inv r op h)

/-- C1: pushing `capacity + k` frames (`k ≥ 0`) onto an initially-empty
buffer of capacity `C` leaves exactly the last `C` pushed frames, in
their original relative order: the contents are the pushed sequence with
its first `k` (oldest) frames evicted. -/
theorem overwrite_order (C k : Nat) (xs : List Frame)
    (h : xs.length = C + k) :
    ((RingBuffer.pushAll ⟨C, []⟩ xs).frames = xs.drop k) ∧
    ((RingBuffer.pushAll ⟨C, []⟩ xs).frames.length = C) := by
  have hchar := RingBuffer.pushAll_frames xs ⟨C, []⟩ (by simp)
  constructor
  · rw [hchar]
    show listTakeLast C ([] ++ xs) = xs.drop k
    rw [List.nil_append, listTakeLast]
    congr 1
    omega
  · rw [hchar, listTakeLast_length]
    simp
    omega

theorem overwrite_order_witness :
    ((RingBuffer.pushAll ⟨2, []⟩
        [⟨1920, 1080, 1⟩, ⟨1920, 1080, 2⟩, ⟨1920, 1080, 3⟩]).frames
      = [⟨1920, 1080, 2⟩, ⟨1920, 1080, 3⟩]) ∧
    ((RingBuffer.pushAll ⟨2, []⟩
        [⟨1920, 1080, 1⟩, ⟨1920, 1080, 2⟩, ⟨1920, 1080, 3⟩]).frames.length
      = 2) := by
  have h := overwrite_order 2 1
    [⟨1920, 1080, 1⟩, ⟨1920, 1080, 2⟩, ⟨1920, 1080, 3⟩] (by decide)
  exact ⟨by rw [h.1]; rfl, h.2⟩

/-- C2: along any serialized sequence of pushes and retention changes
started from a state satisfying the deque invariant, the length never
exceeds the current capacity — in particular after one more push — and
a push onto a positive-capacity buffer always lands the new frame as
the newest element (it succeeds by evicting, never by refusing). -/
theorem bounded_length (r : Recorder) (ops : List BufOp) (f : Frame)
    (h : r.frameBuffer.frames.length ≤ r.frameBuffer.capacity) :
    ((ops.foldl applyOp r).frameBuffer.frames.length
        ≤ (ops.foldl applyOp r).frameBuffer.capacity) ∧
    ((applyOp (ops.foldl applyOp r) (.push f)).frameBuffer.frames.length
        ≤ (applyOp (ops.foldl applyOp r) (.push f)).frameBuffer.capacity) ∧
    (∀ (b : RingBuffer) (g : Frame), b.capacity ≠ 0 →
      (b.push g).frames.getLast? = some g) := by
  refine ⟨foldl_applyOp_inv ops r h, ?_, ?_⟩
  · exact applyOp_inv _ _ (foldl_applyOp_inv ops r h)
  · intro b g hc
    exact RingBuffer.push_getLast b g hc

theorem bounded_length_witness :
    (([BufOp.push ⟨1920, 1080, 1⟩, BufOp.setRetention 0,
        BufOp.push ⟨1920, 1080, 2⟩].foldl applyOp
        (initCamera 30 15 "clips")).frameBuffer.frames.length
      ≤ ([BufOp.push ⟨1920, 1080, 1⟩, BufOp.setRetention 0,
        BufOp.push ⟨1920, 1080, 2⟩].foldl applyOp
        (initCamera 30 15 "clips")).frameBuffer.capacity) := by
  exact (bounded_length (initCamera 30 15 "clips")
    [BufOp.push ⟨1920, 1080, 1⟩, BufOp.setRetention 0,
      BufOp.push ⟨1920, 1080, 2⟩] ⟨1920, 1080, 3⟩ (by decide)).1

/-- C3: `update_buffer_size` yields a buffer of the new capacity
`fps * new_duration` holding exactly the most recent
`min(current_len, new_capacity)` frames, in unchanged order: all frames
are retained when the new capacity covers them, and exactly the oldest
`len - new_capacity` frames are dropped when it does not. -/
theorem resize_keeps_newest (r : Recorder) (d : Nat) :
    ((updateBufferSize r d).frameBuffer.capacity = r.fps * d) ∧
    ((updateBufferSize r d).frameBuffer.frames
      = r.frameBuffer.frames.drop
          (r.frameBuffer.frames.length - r.fps * d)) ∧
    ((updateBufferSize r d).frameBuffer.frames.length
      = min r.frameBuffer.frames.length (r.fps * d)) := by
  exact ⟨updateBufferSize_capacity r d, updateBufferSize_frames r d,
    updateBufferSize_length r d⟩

/-- C10: applying the same retention change twice is the same as
applying it once — the whole recorder state agrees — and a resize whose
new capacity equals the current capacity leaves every held frame in
place on any state satisfying the deque invariant. -/
theorem resize_idempotent (r : Recorder) (d : Nat) :
    (updateBufferSize (updateBufferSize r d) d = updateBufferSize r d) ∧
    (r.frameBuffer.frames.length ≤ r.frameBuffer.capacity →
      r.frameBuffer.capacity = r.fps * d →
      (updateBufferSize r d).frameBuffer.frames = r.frameBuffer.frames) := by
  constructor
  · apply Recorder.ext
    · rfl
    · rfl
    · apply RingBuffer.ext
      · rw [updateBufferSize_capacity, updateBufferSize_capacity]
        rfl
      · rw [updateBufferSize_frames (updateBufferSize r d) d]
        have hlen := updateBufferSize_length r d
        have : (updateBufferSize r d).frameBuffer.frames.length
            - (updateBufferSize r d).fps * d = 0 := by
          have hfps : (updateBufferSize r d).fps = r.fps := rfl
          rw [hlen, hfps]
          omega
        rw [this, List.drop_zero]
    · rfl
    · rfl
    · rfl
    · rfl
  · intro hinv hcap
    rw [updateBufferSize_frames]
    have : r.frameBuffer.frames.length - r.fps * d = 0 := by omega
    rw [this, List.drop_zero]

theorem resize_idempotent_witness :
    (updateBufferSize (updateBufferSize (initCamera 30 15 "clips") 5) 5
      = updateBufferSize (initCamera 30 15 "clips") 5) ∧
    ((updateBufferSize (initCamera 30 15 "clips") 15).frameBuffer.frames
      = (initCamera 30 15 "clips").frameBuffer.frames) := by
  refine ⟨(resize_idempotent (initCamera 30 15 "clips") 5).1, ?_⟩
  exact (resize_idempotent (initCamera 30 15 "clips") 15).2
    (by decide) (by decide)

theorem captureStepFrame_env (r : Recorder) (f : Frame) :
    (captureStepFrame r f).fps = r.fps ∧
    (captureStepFrame r f).videoWidth = r.videoWidth ∧
    (captureStepFrame r f).videoHeight = r.videoHeight ∧
    (captureStepFrame r f).outputDir = r.outputDir ∧
    (captureStepFrame r f).isSaving = r.isSaving := by
  exact ⟨rfl, rfl, rfl, rfl, rfl⟩

/-- Buffering frames touches only the frame buffer: fps, target
dimensions, output directory and the saving flag all survive. -/
theorem captureSteps_env (xs : List Frame) (r : Recorder) :
    ((xs.foldl captureStepFrame r).fps = r.fps) ∧
    ((xs.foldl captureStepFrame r).videoWidth = r.videoWidth) ∧
    ((xs.foldl captureStepFrame r).videoHeight = r.videoHeight) ∧
    ((xs.foldl captureStepFrame r).outputDir = r.outputDir) ∧
    ((xs.foldl captureStepFrame r).isSaving = r.isSaving) := by
  induction xs generalizing r with
  | nil => exact ⟨rfl, rfl, rfl, rfl, rfl⟩
  | cons x xs ih =>
      have hstep : (x :: xs).foldl captureStepFrame r
          = xs.foldl captureStepFrame (captureStepFrame r x) := rfl
      rw [hstep]
      exact ih (captureStepFrame r x)

/-- Buffering is insensitive to the saving flag: flipping `is_saving`
commutes with any number of capture iterations. -/
theorem captureSteps_setSaving (xs : List Frame) (r : Recorder) (b : Bool) :
    xs.foldl captureStepFrame { r with isSaving := b }
      = { xs.foldl captureStepFrame r with isSaving := b } := by
  induction xs generalizing r with
  | nil => rfl
  | cons x xs ih =>
      have hstep : captureStepFrame { r with isSaving := b } x
          = { captureStepFrame r x with isSaving := b } := rfl
      show xs.foldl captureStepFrame (captureStepFrame { r with isSaving := b } x)
          = _
      rw [hstep, ih (captureStepFrame r x)]
      rfl

/-- Two trigger invocations in a row, as delivered sequentially by the
GUI thread: the results of both clicks and the final state. -/
def doubleTrigger (r : Recorder) : TriggerResult × TriggerResult × Recorder :=
  let p1 := onSaveButtonClicked r
  let p2 := onSaveButtonClicked p1.2
  (p1.1, p2.1, p2.2)

/-- C5: a trigger during an in-flight export is silently dropped with no
state change; a trigger on an empty buffer (when idle) is rejected with
the distinct empty-buffer notice, mutates nothing, starts no save thread
(so no file can be produced), and leaves the state idle; and of two
rapid triggers on an idle non-empty recorder exactly the first starts a
save — the second is the silent in-flight drop. -/
theorem trigger_gate (r : Recorder) :
    (r.isSaving = true → onSaveButtonClicked r = (.alreadySaving, r)) ∧
    (r.isSaving = false → r.frameBuffer.frames = [] →
      (onSaveButtonClicked r = (.emptyBuffer, r) ∧
        (∀ (xs : List Frame) (now : ℚ) (encOk : Bool),
          (exportWithConcurrentPushes r xs now encOk).1 = none) ∧
        (onSaveButtonClicked r).2.isSaving = false)) ∧
    (r.isSaving = false → r.frameBuffer.frames ≠ [] →
      (doubleTrigger r
        = (.started r.frameBuffer.frames, .alreadySaving,
            { r with isSaving := true }))) := by
  refine ⟨?_, ?_, ?_⟩
  · intro hs
    unfold onSaveButtonClicked
    rw [hs]
    rfl
  · intro hs hempty
    have hlen : r.frameBuffer.frames.length = 0 := by rw [hempty]; rfl
    have hclick : onSaveButtonClicked r = (.emptyBuffer, r) := by
      unfold onSaveButtonClicked
      rw [hs, hlen]
      rfl
    refine ⟨hclick, ?_, ?_⟩
    · intro xs now encOk
      unfold exportWithConcurrentPushes
      rw [hclick]
    · rw [hclick, hs]
  · intro hs hne
    have hlen : ¬ r.frameBuffer.frames.length = 0 := by
      simpa [List.length_eq_zero] using hne
    have hclick : onSaveButtonClicked r
        = (.started r.frameBuffer.frames, { r with isSaving := true }) := by
      unfold onSaveButtonClicked
      rw [hs, if_neg hlen]
      rfl
    have hclick2 : onSaveButtonClicked { r with isSaving := true }
        = (.alreadySaving, { r with isSaving := true }) := by
      unfold onSaveButtonClicked
      rfl
    simp [doubleTrigger, hclick, hclick2]

theorem trigger_gate_witness :
    (onSaveButtonClicked { initCamera 30 15 "clips" with isSaving := true }
      = (.alreadySaving, { initCamera 30 15 "clips" with isSaving := true })) ∧
    (onSaveButtonClicked (initCamera 30 15 "clips")
      = (.emptyBuffer, initCamera 30 15 "clips")) ∧
    (doubleTrigger (captureStepFrame (initCamera 30 15 "clips") ⟨1920, 1080, 7⟩)
      = (.started [⟨1920, 1080, 7⟩], .alreadySaving,
          { captureStepFrame (initCamera 30 15 "clips") ⟨1920, 1080, 7⟩ with
              isSaving := true })) := by
  refine ⟨?_, ?_, ?_⟩
  · exact (trigger_gate { initCamera 30 15 "clips" with isSaving := true }).1 rfl
  · exact ((trigger_gate (initCamera 30 15 "clips")).2.1 rfl rfl).1
  · have h := (trigger_gate
      (captureStepFrame (initCamera 30 15 "clips") ⟨1920, 1080, 7⟩)).2.2
      rfl (by decide)
    rw [h]
    rfl

/-- Frames already at the target size pass the defensive dimension
re-check untouched. -/
theorem map_normalize_id (w h : Nat) (fs : List Frame)
    (hfs : ∀ f ∈ fs, f.width = w ∧ f.height = h) :
    fs.map (normalizeFrame w h) = fs := by
  induction fs with
  | nil => rfl
  | cons f fs ih =>
      have hf := hfs f (by simp)
      have hnf : normalizeFrame w h f = f := by
        unfold normalizeFrame
        rw [if_neg]
        push_neg
        exact hf
      have hrest : fs.map (normalizeFrame w h) = fs :=
        ih (fun g hg => hfs g (by simp [hg]))
      simp [hnf, hrest]

/-- An idle click on a non-empty buffer starts a save thread: the whole
episode reduces to buffering the concurrent frames and running
`save_video` on the private copy taken at click time. -/
theorem exportWith_started (r : Recorder) (xs : List Frame) (now : ℚ)
    (encOk : Bool) (h1 : r.isSaving = false)
    (hlen : ¬ r.frameBuffer.frames.length = 0) :
    exportWithConcurrentPushes r xs now encOk
      = (some (saveVideo (xs.foldl captureStepFrame { r with isSaving := true })
            r.frameBuffer.frames now encOk),
         afterSaveOutcome
           (xs.foldl captureStepFrame { r with isSaving := true })
           (saveVideo (xs.foldl captureStepFrame { r with isSaving := true })
             r.frameBuffer.frames now encOk)) := by
  have hclick : onSaveButtonClicked r
      = (.started r.frameBuffer.frames, { r with isSaving := true }) := by
    unfold onSaveButtonClicked
    rw [h1, if_neg hlen]
    rfl
  unfold exportWithConcurrentPushes
  rw [hclick]

/-- Running `save_video` on a non-empty frame list with a working encoder: the
written file, spelled out. -/
theorem saveVideo_saved (r : Recorder) (fs : List Frame) (now : ℚ)
    (hlen : ¬ fs.length = 0) :
    saveVideo r fs now true
      = .saved ⟨r.outputDir ++ "/"
            ++ formatTimestamp ⌊now - (fs.length : ℚ) / (r.fps : ℚ)⌋
            ++ ".mp4",
          r.fps, r.videoWidth, r.videoHeight,
          fs.map (normalizeFrame r.videoWidth r.videoHeight)⟩ := by
  unfold saveVideo
  rw [if_neg hlen]
  rfl

/-- Running `save_video` on a non-empty frame list with a raising encoder: the
exception is caught and routed to `on_save_error`. -/
theorem saveVideo_error (r : Recorder) (fs : List Frame) (now : ℚ)
    (hlen : ¬ fs.length = 0) :
    saveVideo r fs now false = .error "Error saving video" := by
  unfold saveVideo
  rw [if_neg hlen]
  rfl

/-- A snapshot handed to the save thread is never empty: the click
handler rejects an empty buffer before starting the thread. -/
theorem started_frames_ne_nil (r : Recorder) (fs : List Frame)
    (h : (onSaveButtonClicked r).1 = .started fs) : fs ≠ [] := by
  unfold onSaveButtonClicked at h
  by_cases hs : r.isSaving
  · simp [hs] at h
  · by_cases hlen : r.frameBuffer.frames.length = 0
    · simp [hs, hlen] at h
    · simp [hs, hlen] at h
      intro hnil
      rw [hnil] at h
      simp [h] at hlen

/-- C4: an export works on the private copy taken at trigger time: for
any frames `xs` the capture loop pushes while the save thread runs, the
written file holds exactly the frames that were in the buffer at the
click, and the episode leaves the live buffer exactly as the concurrent
pushes alone would — the export mutates no buffer state. -/
theorem export_snapshot (r : Recorder) (xs : List Frame) (now : ℚ)
    (h1 : r.isSaving = false) (h2 : r.frameBuffer.frames ≠ [])
    (h3 : ∀ f ∈ r.frameBuffer.frames,
      f.width = r.videoWidth ∧ f.height = r.videoHeight) :
    (∃ file : VideoFile,
      (exportWithConcurrentPushes r xs now true).1 = some (.saved file) ∧
      file.frames = r.frameBuffer.frames) ∧
    ((exportWithConcurrentPushes r xs now true).2.frameBuffer
      = (xs.foldl captureStepFrame r).frameBuffer) := by
  have hlen : ¬ r.frameBuffer.frames.length = 0 := by
    simpa [List.length_eq_zero] using h2
  have hexp := exportWith_started r xs now true h1 hlen
  have henv := captureSteps_env xs { r with isSaving := true }
  have hsv := saveVideo_saved
    (xs.foldl captureStepFrame { r with isSaving := true })
    r.frameBuffer.frames now hlen
  constructor
  · refine ⟨_, by rw [hexp, hsv], ?_⟩
    show r.frameBuffer.frames.map (normalizeFrame _ _) = r.frameBuffer.frames
    rw [henv.2.1, henv.2.2.1]
    exact map_normalize_id r.videoWidth r.videoHeight r.frameBuffer.frames h3
  · rw [hexp, hsv]
    show (xs.foldl captureStepFrame { r with isSaving := true }).frameBuffer
        = (xs.foldl captureStepFrame r).frameBuffer
    rw [captureSteps_setSaving]

theorem export_snapshot_witness :
    (∃ file : VideoFile,
      (exportWithConcurrentPushes
          (captureStepFrame (initCamera 30 15 "clips") ⟨1920, 1080, 1⟩)
          [⟨1920, 1080, 2⟩] 0 true).1 = some (.saved file) ∧
      file.frames = (captureStepFrame (initCamera 30 15 "clips")
          ⟨1920, 1080, 1⟩).frameBuffer.frames) ∧
    ((exportWithConcurrentPushes
        (captureStepFrame (initCamera 30 15 "clips") ⟨1920, 1080, 1⟩)
        [⟨1920, 1080, 2⟩] 0 true).2.frameBuffer
      = ([⟨1920, 1080, 2⟩].foldl captureStepFrame
          (captureStepFrame (initCamera 30 15 "clips")
            ⟨1920, 1080, 1⟩)).frameBuffer) :=
  export_snapshot (captureStepFrame (initCamera 30 15 "clips") ⟨1920, 1080, 1⟩)
    [⟨1920, 1080, 2⟩] 0 rfl (by decide) (by decide)

/-- C6: a triggered export that fails (the encoder raises) reports the
error, clears the in-flight flag — the exporter returns to idle — and
leaves capture untouched: the buffer is exactly what the concurrent
pushes alone produce.  A successful export clears the flag too, and the
zero-frames failure mode cannot occur on a triggered export because a
started snapshot is never empty. -/
theorem export_failure_idle (r : Recorder) (xs : List Frame) (now : ℚ)
    (h1 : r.isSaving = false) (h2 : r.frameBuffer.frames ≠ []) :
    ((exportWithConcurrentPushes r xs now false).1
        = some (.error "Error saving video")) ∧
    ((exportWithConcurrentPushes r xs now false).2.isSaving = false) ∧
    ((exportWithConcurrentPushes r xs now false).2.frameBuffer
        = (xs.foldl captureStepFrame r).frameBuffer) ∧
    ((exportWithConcurrentPushes r xs now true).2.isSaving = false) ∧
    (∀ (r' : Recorder) (fs : List Frame),
      (onSaveButtonClicked r').1 = .started fs → fs ≠ []) := by
  have hlen : ¬ r.frameBuffer.frames.length = 0 := by
    simpa [List.length_eq_zero] using h2
  have hexpF := exportWith_started r xs now false h1 hlen
  have hexpT := exportWith_started r xs now true h1 hlen
  have hsvF := saveVideo_error
    (xs.foldl captureStepFrame { r with isSaving := true })
    r.frameBuffer.frames now hlen
  have hsvT := saveVideo_saved
    (xs.foldl captureStepFrame { r with isSaving := true })
    r.frameBuffer.frames now hlen
  refine ⟨?_, ?_, ?_, ?_, started_frames_ne_nil⟩
  · rw [hexpF, hsvF]
  · rw [hexpF, hsvF]
    rfl
  · rw [hexpF, hsvF]
    show (xs.foldl captureStepFrame { r with isSaving := true }).frameBuffer
        = (xs.foldl captureStepFrame r).frameBuffer
    rw [captureSteps_setSaving]
  · rw [hexpT, hsvT]
    rfl

theorem export_failure_idle_witness :
    ((exportWithConcurrentPushes
        (captureStepFrame (initCamera 30 15 "clips") ⟨1920, 1080, 1⟩)
        [] 0 false).1 = some (.error "Error saving video")) ∧
    ((exportWithConcurrentPushes
        (captureStepFrame (initCamera 30 15 "clips") ⟨1920, 1080, 1⟩)
        [] 0 false).2.isSaving = false) :=
  let h := export_failure_idle
    (captureStepFrame (initCamera 30 15 "clips") ⟨1920, 1080, 1⟩)
    [] 0 rfl (by decide)
  ⟨h.1, h.2.1⟩

/-- C8: a successful export of `n` frames at rate `fps` writes exactly
one file, into the configured output directory, named by the clip's
nominal start instant `now - n / fps` rendered as
`YYYY-MM-DD_HH-MM-SS` with the `.mp4` container extension, and encoded
at the captured fps and the fixed target resolution. -/
theorem export_filename (r : Recorder) (fs : List Frame) (now : ℚ)
    (h : fs ≠ []) :
    saveVideo r fs now true
      = .saved ⟨r.outputDir ++ "/"
            ++ formatTimestamp ⌊now - (fs.length : ℚ) / (r.fps : ℚ)⌋
            ++ ".mp4",
          r.fps, r.videoWidth, r.videoHeight,
          fs.map (normalizeFrame r.videoWidth r.videoHeight)⟩ := by
  exact saveVideo_saved r fs now (by simpa [List.length_eq_zero] using h)

theorem export_filename_witness :
    saveVideo (initCamera 30 15 "clips") [⟨1920, 1080, 1⟩]
        (1760299015 : ℚ) true
      = .saved ⟨"clips/2025-10-12_19-56-54.mp4", 30, 1920, 1080,
          [⟨1920, 1080, 1⟩]⟩ := by
  rw [export_filename (initCamera 30 15 "clips") [⟨1920, 1080, 1⟩]
    (1760299015 : ℚ) (by decide)]
  have hfps : (initCamera 30 15 "clips").fps = 30 := by decide
  have hfl : (⌊(1760299015 : ℚ)
      - (([(⟨1920, 1080, 1⟩ : Frame)] : List Frame).length : ℚ)
        / (((initCamera 30 15 "clips").fps : Nat) : ℚ)⌋ : ℤ)
      = 1760299014 := by
    rw [hfps]
    simp only [List.length_cons, List.length_nil]
    refine Int.floor_eq_iff.mpr ⟨by push_cast; norm_num, by push_cast; norm_num⟩
  rw [hfl]
  decide

/-- C7 counterexample: `capture_loop` does not drop a bad frame and
continue — `if not ret: break` ends the loop on the first failed read,
so a frame arriving after a failed read is never buffered.  On the read
trace `ok f1, fail, ok f2` the claim would leave `[f1, f2]` in the
buffer; the code leaves `[f1]`. -/
theorem capture_loop_counterexample :
    ((captureLoop (initCamera 30 15 "clips")
        [.ok ⟨1920, 1080, 1⟩, .fail, .ok ⟨1920, 1080, 2⟩]).frameBuffer.frames
      = [⟨1920, 1080, 1⟩]) ∧
    ((captureLoop (initCamera 30 15 "clips")
        [.ok ⟨1920, 1080, 1⟩, .fail, .ok ⟨1920, 1080, 2⟩]).frameBuffer.frames
      ≠ [⟨1920, 1080, 1⟩, ⟨1920, 1080, 2⟩]) := by
  decide

/-- C7 amended: every failed read — the loop cannot tell a malformed
frame from end-of-stream, both surface as `ret == False` — terminates
the capture loop at once: exactly the frames read before the first
failure are buffered, and nothing after the failure is processed.  The
termination is fatal to the loop only: all recorder state other than
the frame buffer (saving flag, fps, output directory) is untouched, so
the rest of the process keeps working. -/
theorem capture_stops_at_first_failed_read (r : Recorder)
    (src : List ReadResult) :
    (captureLoop r src = (okFrames src).foldl captureStepFrame r) ∧
    ((captureLoop r src).isSaving = r.isSaving) ∧
    ((captureLoop r src).fps = r.fps) ∧
    ((captureLoop r src).outputDir = r.outputDir) := by
  have hmain : ∀ (src : List ReadResult) (r : Recorder),
      captureLoop r src = (okFrames src).foldl captureStepFrame r := by
    intro src
    induction src with
    | nil => intro r; rfl
    | cons x rest ih =>
        intro r
        cases x with
        | fail => rfl
        | ok f => exact ih (captureStepFrame r f)
  refine ⟨hmain src r, ?_, ?_, ?_⟩
  · rw [hmain src r]
    exact (captureSteps_env (okFrames src) r).2.2.2.2
  · rw [hmain src r]
    exact (captureSteps_env (okFrames src) r).1
  · rw [hmain src r]
    exact (captureSteps_env (okFrames src) r).2.2.2.1

/-- C9 counterexample: the code derives the capacity from the reported
fps truncated to an integer (`int(self.cap.get(cv2.CAP_PROP_FPS))`),
not from `round(fps × retention_seconds)`: a camera reporting 2.6 fps
with a 1-second window gets capacity `int(2.6) * 1 = 2`, while the
claimed formula gives `round(2.6) = 3`. -/
theorem capacity_formula_counterexample :
    (initCapacity (13 / 5 : ℚ) 1 = 2) ∧
    (round ((13 / 5 : ℚ) * (1 : ℚ)) = (3 : ℤ)) ∧
    ((initCapacity (13 / 5 : ℚ) 1 : ℤ) ≠ round ((13 / 5 : ℚ) * (1 : ℚ))) := by
  have hfl : (⌊(13 / 5 : ℚ)⌋ : ℤ) = 2 :=
    Int.floor_eq_iff.mpr ⟨by norm_num, by norm_num⟩
  have htr : pyTrunc (13 / 5 : ℚ) = 2 := by
    unfold pyTrunc
    rw [if_pos (by norm_num), hfl]
  have hfps : fpsFromCamera (13 / 5 : ℚ) = 2 := by
    unfold fpsFromCamera
    rw [htr]
    rfl
  have hcap : initCapacity (13 / 5 : ℚ) 1 = 2 := by
    unfold initCapacity
    rw [hfps]
  have hround : round ((13 / 5 : ℚ) * (1 : ℚ)) = (3 : ℤ) := by
    rw [round_eq]
    exact Int.floor_eq_iff.mpr ⟨by norm_num, by norm_num⟩
  refine ⟨hcap, hround, ?_⟩
  rw [hcap, hround]
  decide

/-- C9 amended: the capacity is `int(f) × s` — the reported fps
truncated toward zero, with the fallback 30 when the truncation is not
positive — at startup, and `stored_integer_fps × s` on a runtime
retention change; the claimed `round(f × s)` holds exactly when the
source reports an integral fps. -/
theorem capacity_truncated_fps (m s : Nat) (hm : 0 < m) :
    ((initCapacity ((m : Nat) : ℚ) s : ℤ) = round (((m : Nat) : ℚ) * ((s : Nat) : ℚ))) ∧
    (initCapacity ((m : Nat) : ℚ) s = m * s) ∧
    (∀ (f : ℚ), 0 < pyTrunc f → (initCapacity f s : ℤ) = pyTrunc f * s) ∧
    (∀ (r : Recorder) (d : Nat),
      (updateBufferSize r d).frameBuffer.capacity = r.fps * d) := by
  have htr : pyTrunc ((m : Nat) : ℚ) = (m : ℤ) := by
    unfold pyTrunc
    rw [if_pos (by positivity), Int.floor_natCast]
  have hfps : fpsFromCamera ((m : Nat) : ℚ) = m := by
    unfold fpsFromCamera
    rw [htr, if_neg (by omega)]
    simp
  have hcap : initCapacity ((m : Nat) : ℚ) s = m * s := by
    unfold initCapacity
    rw [hfps]
  refine ⟨?_, hcap, ?_, ?_⟩
  · rw [hcap, ← Nat.cast_mul, round_natCast]
  · intro f hf
    unfold initCapacity fpsFromCamera
    rw [if_neg (by omega)]
    push_cast [Int.toNat_of_nonneg (le_of_lt hf)]
    ring
  · intro r d
    exact updateBufferSize_capacity r d

theorem capacity_truncated_fps_witness :
    ((initCapacity ((30 : Nat) : ℚ) 15 : ℤ)
      = round (((30 : Nat) : ℚ) * ((15 : Nat) : ℚ))) ∧
    (initCapacity ((30 : Nat) : ℚ) 15 = 450) := by
  have h := capacity_truncated_fps 30 15 (by decide)
  refine ⟨h.1, ?_⟩
  rw [h.2.1]

end CameraRecorder
